import Mathlib

/-!
Verification of the ProfitFlow (Masjid ERP) receipt-book numbering core:
the Receipt Book Allocator, the Receipt Ledger, the Financial Aggregator
and the Report Publisher, together with their error taxonomy.

The repository's server code (Express routes and the storage layer) is not
present in the source tree; only its documentation and client-side callers
are.  Following the specification, the server operations are modelled here
directly from the specification text.  Field names follow the client-side
schema (`receiptNumber`, `receiptBookId`, `startingReceiptNumber`,
`endingReceiptNumber`, `assignedTo`, `taskId`, `amount`, ...).
-/

namespace ProfitFlow

/-- The three user roles of the role-based access-control model. -/
inductive Role where
  | admin
  | manager
  | cash_collector
deriving DecidableEq, Repr

/-- The error taxonomy of §7 of the specification, together with the
RangeError of §4.2 step 4. -/
inductive ErrorKind where
  | ValidationError
  | AuthorizationError
  | NotFoundError
  | RangeExhaustedError
  | DuplicateError
  | RangeError
deriving DecidableEq, Repr

/-- A receipt book: a reserved contiguous numeric range tied to one task,
assignable to one collector.  Field names follow the client schema. -/
structure ReceiptBook where
  id : Nat
  bookNumber : Nat
  taskId : Nat
  startingReceiptNumber : Nat
  endingReceiptNumber : Nat
  assignedTo : Option Nat
deriving DecidableEq, Repr

/-- An issued receipt.  Amounts are two-digit decimals, modelled as
rationals. -/
structure Receipt where
  id : Nat
  receiptNumber : Nat
  receiptBookId : Nat
  taskId : Nat
  giverName : String
  address : String
  phoneNumber : Option String
  amount : ℚ
  issuedBy : Nat
  createdAt : Nat
deriving DecidableEq, Repr

/-- The mutable state of the Allocator and the Receipt Ledger: the receipt
books and the receipts issued against them. -/
structure Ledger where
  books : List ReceiptBook
  receipts : List Receipt
deriving DecidableEq, Repr

/-- The input of an `issueReceipt` call (§4.2), including the acting
user's identity and role. -/
structure IssueRequest where
  receiptBookId : Nat
  receiptNumber : Nat
  taskId : Nat
  giverName : String
  address : String
  phoneNumber : Option String
  amount : ℚ
  actorUserId : Nat
  actorRole : Role
deriving DecidableEq, Repr

/-- Resolve a book by id (§4.2 step 1). -/
def findBook (st : Ledger) (bookId : Nat) : Option ReceiptBook :=
  st.books.find? (fun b => b.id == bookId)

/-- Modelled from the spec: the authorization rule of §4.2 step 2 (the
server-side check is not in the source tree).  A cash collector may only
issue against a book assigned to them; manager and admin may issue against
any book. -/
def authCheck (book : ReceiptBook) (role : Role) (actorUserId : Nat) : Bool :=
  match role with
  | .cash_collector => book.assignedTo == some actorUserId
  | .manager => true
  | .admin => true

/-- Modelled from the spec: the range validation of §4.2 step 4 —
`number ∈ [book.start, book.end]`. -/
def rangeCheck (book : ReceiptBook) (number : Nat) : Bool :=
  book.startingReceiptNumber ≤ number && number ≤ book.endingReceiptNumber

/-- Modelled from the spec: the amount validation of §4.2 step 5 —
`amount > 0`. -/
def amountCheck (amount : ℚ) : Bool :=
  decide (0 < amount)

/-- Does a receipt with the given `(bookId, number)` pair already exist
(§4.2 step 6)? -/
def duplicateExists (st : Ledger) (bookId number : Nat) : Bool :=
  st.receipts.any (fun r => r.receiptBookId == bookId && r.receiptNumber == number)

/-- The receipt persisted by a successful `issueReceipt` call (§4.2 step
7): the request's data with the server-assigned identifier and
timestamp. -/
def mkReceipt (req : IssueRequest) (newId now : Nat) : Receipt :=
  { id := newId
    receiptNumber := req.receiptNumber
    receiptBookId := req.receiptBookId
    taskId := req.taskId
    giverName := req.giverName
    address := req.address
    phoneNumber := req.phoneNumber
    amount := req.amount
    issuedBy := req.actorUserId
    createdAt := now }

/-- Modelled from the spec: `issueReceipt` of §4.2 (the server route and
storage layer are not in the source tree).  Steps in order: resolve the
book, authorize, validate the task, validate the range, validate the
amount, atomically check-and-insert.  Returns the ledger after the call
(unchanged on failure) together with the outcome. -/
def issueReceipt (st : Ledger) (req : IssueRequest) (newId now : Nat) :
    Ledger × Except ErrorKind Receipt :=
  match findBook st req.receiptBookId with
  | none => (st, .error .NotFoundError)
  | some book =>
    if authCheck book req.actorRole req.actorUserId then
      if req.taskId == book.taskId then
        if rangeCheck book req.receiptNumber then
          if amountCheck req.amount then
            if duplicateExists st req.receiptBookId req.receiptNumber then
              (st, .error .DuplicateError)
            else
              let r := mkReceipt req newId now
              ({ st with receipts := r :: st.receipts }, .ok r)
          else (st, .error .ValidationError)
        else (st, .error .RangeError)
      else (st, .error .ValidationError)
    else (st, .error .AuthorizationError)

/-- Sequential execution of `n` identical `issueReceipt` requests, each
against the state left by the previous one.  Because the check-and-insert
of §4.2 step 6 is a single atomic operation, any concurrent execution of
identical requests is equivalent to such a serialization. -/
def issueN (st : Ledger) (req : IssueRequest) (baseId now : Nat) :
    Nat → Ledger × List (Except ErrorKind Receipt)
  | 0 => (st, [])
  | n + 1 =>
    let first := issueReceipt st req baseId now
    let rest := issueN first.1 req (baseId + 1) now n
    (rest.1, first.2 :: rest.2)

/-- The receipt numbers already issued in a book. -/
def bookReceiptNumbers (st : Ledger) (bookId : Nat) : List Nat :=
  (st.receipts.filter (fun r => r.receiptBookId == bookId)).map
    (fun r => r.receiptNumber)

/-- Modelled from the spec: `nextAvailableNumber` of §4.1 (the server
route is not in the source tree).  Returns `max(existing numbers) + 1`, or
`book.start` if the book has no receipts; fails with RangeExhaustedError
when the candidate exceeds `book.end`.  It is advisory: it takes the
ledger read-only and reserves nothing. -/
def nextAvailableNumber (st : Ledger) (bookId : Nat) : Except ErrorKind Nat :=
  match findBook st bookId with
  | none => .error .NotFoundError
  | some book =>
    let nums := bookReceiptNumbers st bookId
    let candidate :=
      match nums with
      | [] => book.startingReceiptNumber
      | _ :: _ => nums.foldl Nat.max 0 + 1
    if book.endingReceiptNumber < candidate then .error .RangeExhaustedError
    else .ok candidate

/-- An income task (category), e.g. "Construction". -/
structure Task where
  id : Nat
  name : String
deriving DecidableEq, Repr

/-- An expense entry of the append-only Expense Ledger. -/
structure Expense where
  id : Nat
  expenseTypeId : Nat
  amount : ℚ
  description : String
  date : Nat
  recordedBy : Nat
deriving DecidableEq, Repr

/-- The optional filter of `computeTotals` (§4.3). -/
structure TotalsFilter where
  dateFrom : Option Nat
  dateTo : Option Nat
  taskId : Option Nat
deriving DecidableEq, Repr

/-- The all-time filter: no date bounds, no task restriction. -/
def TotalsFilter.all : TotalsFilter :=
  { dateFrom := none, dateTo := none, taskId := none }

/-- Per-task income breakdown row returned by the aggregator, mirroring
the client's `PublicReportData.incomeByTask` shape. -/
structure TaskIncome where
  taskId : Nat
  taskName : String
  total : ℚ
  receiptBookCount : Nat
deriving DecidableEq, Repr

/-- The aggregator's result, mirroring the client's `PublicReportData`
shape. -/
structure Totals where
  totalIncome : ℚ
  totalExpenses : ℚ
  balance : ℚ
  incomeByTask : List TaskIncome
deriving DecidableEq, Repr

/-- An immutable published snapshot of the aggregator's output (§4.4),
superseded, never mutated, by later publications. -/
structure PublishedReport where
  id : Nat
  totalIncome : ℚ
  totalExpenses : ℚ
  balance : ℚ
  incomeByTask : List TaskIncome
  publishedAt : Nat
  publishedBy : Nat
deriving DecidableEq, Repr

/-- The full application state: the receipt books and receipts, the
tasks, the expense ledger and the published reports. -/
structure AppState where
  ledger : Ledger
  tasks : List Task
  expenses : List Expense
  reports : List PublishedReport
deriving DecidableEq, Repr

/-- Does a date fall inside the filter's window? -/
def matchesDate (f : TotalsFilter) (d : Nat) : Bool :=
  (match f.dateFrom with | none => true | some a => a ≤ d) &&
  (match f.dateTo with | none => true | some b => d ≤ b)

/-- Does a receipt match the filter (date window and optional task)? -/
def receiptMatches (f : TotalsFilter) (r : Receipt) : Bool :=
  matchesDate f r.createdAt &&
  (match f.taskId with | none => true | some t => r.taskId == t)

/-- Sum of a list of rational amounts. -/
def sumAmounts (l : List ℚ) : ℚ :=
  l.foldl (· + ·) 0

/-- Modelled from the spec: `computeTotals` of §4.3 (the server route is
not in the source tree).  Sums receipt amounts grouped by task and expense
amounts across the filtered window; `balance = totalIncome -
totalExpenses`; `receiptBookCount` counts the distinct books contributing
at least one receipt to the task within the filter. -/
def computeTotals (st : AppState) (f : TotalsFilter) : Totals :=
  let rs := st.ledger.receipts.filter (receiptMatches f)
  let es := st.expenses.filter (fun e => matchesDate f e.date)
  let income := sumAmounts (rs.map (fun r => r.amount))
  let expensesTotal := sumAmounts (es.map (fun e => e.amount))
  { totalIncome := income
    totalExpenses := expensesTotal
    balance := income - expensesTotal
    incomeByTask := st.tasks.filterMap (fun t =>
      let trs := rs.filter (fun r => r.taskId == t.id)
      match trs with
      | [] => none
      | _ :: _ => some
          { taskId := t.id
            taskName := t.name
            total := sumAmounts (trs.map (fun r => r.amount))
            receiptBookCount := (trs.map (fun r => r.receiptBookId)).dedup.length }) }

/-- Modelled from the spec: `publish` of §4.4 (the server route is not in
the source tree).  Fails with AuthorizationError unless the actor is
manager or admin; otherwise snapshots the aggregator's all-time output
into a new immutable PublishedReport. -/
def publish (st : AppState) (actorRole : Role) (actorUserId now newId : Nat) :
    AppState × Except ErrorKind PublishedReport :=
  match actorRole with
  | .cash_collector => (st, .error .AuthorizationError)
  | _ =>
    let t := computeTotals st TotalsFilter.all
    let rep : PublishedReport :=
      { id := newId
        totalIncome := t.totalIncome
        totalExpenses := t.totalExpenses
        balance := t.balance
        incomeByTask := t.incomeByTask
        publishedAt := now
        publishedBy := actorUserId }
    ({ st with reports := rep :: st.reports }, .ok rep)

/-- Modelled from the spec: `getLatestPublished` of §4.4 (the server route
is not in the source tree).  Returns the most recent PublishedReport by
publish timestamp, or an empty result (`none`) when none has ever been
published — never a server error. -/
def getLatestPublished (reports : List PublishedReport) : Option PublishedReport :=
  match reports with
  | [] => none
  | r :: rs => some (rs.foldl (fun acc x => if acc.publishedAt < x.publishedAt then x else acc) r)

/-- The abstract REST surface of §6. -/
inductive Endpoint where
  | createBook
  | assignBook
  | nextNumber
  | createReceipt
  | editReceipt
  | listReceiptsEp
  | financials
  | publishReport
  | publishedReport
deriving DecidableEq, Repr

/-- Modelled from the spec: which endpoints of §6 require authentication
(the auth middleware is not in the source tree).  `GET /reports/published`
is the only endpoint reachable without authentication. -/
def requiresAuth (e : Endpoint) : Bool :=
  match e with
  | .publishedReport => false
  | _ => true

/-! ## Helper lemmas -/

/-- The `(bookId, number)` keys of all receipts in the ledger. -/
def receiptKeys (st : Ledger) : List (Nat × Nat) :=
  st.receipts.map (fun r => (r.receiptBookId, r.receiptNumber))

theorem duplicateExists_iff (st : Ledger) (b n : Nat) :
    duplicateExists st b n = true ↔ (b, n) ∈ receiptKeys st := by
  simp [duplicateExists, receiptKeys, List.any_eq_true, Prod.ext_iff]

theorem issueReceipt_cases (st : Ledger) (req : IssueRequest) (newId now : Nat) :
    ((issueReceipt st req newId now).1 = st ∧
      ∃ e, (issueReceipt st req newId now).2 = .error e) ∨
    (∃ book, findBook st req.receiptBookId = some book ∧
      authCheck book req.actorRole req.actorUserId = true ∧
      req.taskId = book.taskId ∧
      rangeCheck book req.receiptNumber = true ∧
      amountCheck req.amount = true ∧
      duplicateExists st req.receiptBookId req.receiptNumber = false ∧
      issueReceipt st req newId now =
        ({ st with receipts := mkReceipt req newId now :: st.receipts },
          .ok (mkReceipt req newId now))) := by
  rcases hfb : findBook st req.receiptBookId with _ | book
  · exact .inl (by simp [issueReceipt, hfb])
  · by_cases h1 : authCheck book req.actorRole req.actorUserId = true
    · by_cases h2 : req.taskId = book.taskId
      · by_cases h3 : rangeCheck book req.receiptNumber = true
        · by_cases h4 : amountCheck req.amount = true
          · by_cases h5 : duplicateExists st req.receiptBookId req.receiptNumber = true
            · exact .inl (by simp [issueReceipt, hfb, h1, h2, h3, h4, h5])
            · refine .inr ⟨book, rfl, h1, h2, h3, h4, by simpa using h5, ?_⟩
              simp [issueReceipt, hfb, h1, h2, h3, h4, h5]
          · exact .inl (by simp [issueReceipt, hfb, h1, h2, h3, h4])
        · exact .inl (by simp [issueReceipt, hfb, h1, h2, h3])
      · exact .inl (by simp [issueReceipt, hfb, h1, h2])
    · exact .inl (by simp [issueReceipt, hfb, h1])

theorem issueReceipt_ok_elim (st : Ledger) (req : IssueRequest) (newId now : Nat)
    (r : Receipt) (h : (issueReceipt st req newId now).2 = .ok r) :
    ∃ book, findBook st req.receiptBookId = some book ∧
      authCheck book req.actorRole req.actorUserId = true ∧
      req.taskId = book.taskId ∧
      rangeCheck book req.receiptNumber = true ∧
      amountCheck req.amount = true ∧
      duplicateExists st req.receiptBookId req.receiptNumber = false ∧
      r = mkReceipt req newId now ∧
      issueReceipt st req newId now =
        ({ st with receipts := r :: st.receipts }, .ok r) := by
  rcases issueReceipt_cases st req newId now with ⟨-, e, he⟩ | ⟨book, hb, hs⟩
  · rw [h] at he; exact absurd he (by simp)
  · refine ⟨book, hb, hs.1, hs.2.1, hs.2.2.1, hs.2.2.2.1, hs.2.2.2.2.1, ?_, ?_⟩
    · have := hs.2.2.2.2.2
      rw [this] at h
      simpa using h.symm
    · have hr : r = mkReceipt req newId now := by
        have := hs.2.2.2.2.2
        rw [this] at h
        simpa using h.symm
      rw [hr]; exact hs.2.2.2.2.2

/-! ## Witness data -/

/-- A concrete receipt book for witnesses: id 1, range 1..5, task 10,
assigned to user 7. -/
def wBook : ReceiptBook :=
  { id := 1, bookNumber := 1, taskId := 10, startingReceiptNumber := 1,
    endingReceiptNumber := 5, assignedTo := some 7 }

/-- A concrete ledger holding only `wBook` and no receipts. -/
def wLedger : Ledger := { books := [wBook], receipts := [] }

/-- A valid issuance request by the assigned collector (user 7). -/
def wReq : IssueRequest :=
  { receiptBookId := 1, receiptNumber := 3, taskId := 10, giverName := "G",
    address := "A", phoneNumber := none, amount := 100, actorUserId := 7,
    actorRole := .cash_collector }

/-- The same request with a number outside the book's range. -/
def wReqOut : IssueRequest := { wReq with receiptNumber := 9 }

/-- The same request by a collector the book is not assigned to. -/
def wReqOther : IssueRequest := { wReq with actorUserId := 8 }

/-- The same request by a manager. -/
def wReqMgr : IssueRequest := { wReq with actorRole := .manager }

/-- The same request with a non-positive amount. -/
def wReqZero : IssueRequest := { wReq with amount := 0 }

/-- The same request with a task different from the book's task. -/
def wReqTask : IssueRequest := { wReq with taskId := 11 }

/-- The receipt produced by issuing `wReq` against the empty ledger. -/
def wReceipt : Receipt := mkReceipt wReq 1 0

/-- A ledger in which receipt number 3 of book 1 is already issued. -/
def wLedger1 : Ledger := { books := [wBook], receipts := [wReceipt] }

/-! ## Claim theorems: range, authorization, amount, task binding -/

/-- **C1.** Every receipt issued via `issueReceipt` carries a number
inside its book's range `[start, end]`; and a call whose number lies
outside `[book.start, book.end]` (the book resolving and steps 2–3
passing) fails with RangeError, leaving the ledger unchanged and creating
no receipt. -/
theorem issueReceipt_number_in_range (st : Ledger) (req : IssueRequest)
    (newId now : Nat) :
    (∀ r, (issueReceipt st req newId now).2 = .ok r →
      ∃ book, findBook st req.receiptBookId = some book ∧
        book.startingReceiptNumber ≤ r.receiptNumber ∧
        r.receiptNumber ≤ book.endingReceiptNumber) ∧
    (∀ book, findBook st req.receiptBookId = some book →
      authCheck book req.actorRole req.actorUserId = true →
      req.taskId = book.taskId →
      ¬(book.startingReceiptNumber ≤ req.receiptNumber ∧
        req.receiptNumber ≤ book.endingReceiptNumber) →
      issueReceipt st req newId now = (st, .error .RangeError)) := by
  constructor
  · intro r h
    obtain ⟨book, hb, -, -, h3, -, -, hr, -⟩ :=
      issueReceipt_ok_elim st req newId now r h
    refine ⟨book, hb, ?_⟩
    rw [hr]
    simpa [rangeCheck, mkReceipt] using h3
  · intro book hb h1 h2 hout
    have h3 : ¬ rangeCheck book req.receiptNumber = true := by
      simp only [rangeCheck, Bool.and_eq_true, decide_eq_true_eq]
      exact hout
    simp [issueReceipt, hb, h1, h2, h3]

theorem issueReceipt_number_in_range_witness :
    (∃ book, findBook wLedger wReq.receiptBookId = some book ∧
      book.startingReceiptNumber ≤ (mkReceipt wReq 1 0).receiptNumber ∧
      (mkReceipt wReq 1 0).receiptNumber ≤ book.endingReceiptNumber) ∧
    issueReceipt wLedger wReqOut 1 0 = (wLedger, .error .RangeError) := by
  constructor
  · exact (issueReceipt_number_in_range wLedger wReq 1 0).1
      (mkReceipt wReq 1 0) (by rfl)
  · exact (issueReceipt_number_in_range wLedger wReqOut 1 0).2
      wBook (by rfl) (by rfl) (by rfl) (by decide)

/-- **C5.** A cash collector issuing against a book not assigned to them
gets AuthorizationError; a manager or admin is never rejected by the
authorization step, whatever the book. -/
theorem issueReceipt_authorization (st : Ledger) (req : IssueRequest)
    (newId now : Nat) :
    (∀ book, req.actorRole = .cash_collector →
      findBook st req.receiptBookId = some book →
      book.assignedTo ≠ some req.actorUserId →
      issueReceipt st req newId now = (st, .error .AuthorizationError)) ∧
    (req.actorRole = .manager ∨ req.actorRole = .admin →
      (issueReceipt st req newId now).2 ≠ .error .AuthorizationError) := by
  constructor
  · intro book hrole hb hne
    have h1 : ¬ authCheck book req.actorRole req.actorUserId = true := by
      simp [authCheck, hrole, hne]
    simp [issueReceipt, hb, h1]
  · intro hrole
    have hpass : ∀ book : ReceiptBook,
        authCheck book req.actorRole req.actorUserId = true := by
      intro book; rcases hrole with h | h <;> simp [authCheck, h]
    rcases hfb : findBook st req.receiptBookId with _ | book
    · simp [issueReceipt, hfb]
    · simp only [issueReceipt, hfb, hpass book, if_true]
      split_ifs <;> simp

theorem issueReceipt_authorization_witness :
    issueReceipt wLedger wReqOther 1 0 = (wLedger, .error .AuthorizationError) ∧
    (issueReceipt wLedger wReqMgr 1 0).2 ≠ .error .AuthorizationError := by
  constructor
  · exact (issueReceipt_authorization wLedger wReqOther 1 0).1
      wBook (by rfl) (by rfl) (by decide)
  · exact (issueReceipt_authorization wLedger wReqMgr 1 0).2 (.inl rfl)

/-- **C6.** The amount validation of §4.2 step 5 accepts exactly the
amounts strictly greater than 0: every positive amount passes the check,
and a call with `amount ≤ 0` (steps 1–4 passing) fails with
ValidationError and leaves the ledger unchanged. -/
theorem issueReceipt_amount_validation (st : Ledger) (req : IssueRequest)
    (newId now : Nat) :
    (∀ a : ℚ, 0 < a → amountCheck a = true) ∧
    (∀ book, findBook st req.receiptBookId = some book →
      authCheck book req.actorRole req.actorUserId = true →
      req.taskId = book.taskId →
      rangeCheck book req.receiptNumber = true →
      req.amount ≤ 0 →
      issueReceipt st req newId now = (st, .error .ValidationError)) := by
  constructor
  · intro a ha; simpa [amountCheck] using ha
  · intro book hb h1 h2 h3 hle
    have h4 : ¬ amountCheck req.amount = true := by
      simpa [amountCheck, not_lt] using hle
    simp [issueReceipt, hb, h1, h2, h3, h4]

theorem issueReceipt_amount_validation_witness :
    amountCheck 100 = true ∧
    issueReceipt wLedger wReqZero 1 0 = (wLedger, .error .ValidationError) := by
  constructor
  · exact (issueReceipt_amount_validation wLedger wReq 1 0).1 100 (by norm_num)
  · exact (issueReceipt_amount_validation wLedger wReqZero 1 0).2
      wBook (by rfl) (by rfl) (by rfl) (by rfl) (by norm_num [wReqZero, wReq])

/-- **C7.** A call whose taskId differs from the resolved book's taskId
fails with ValidationError (the book resolving and authorization passing);
and every successfully created receipt carries a task reference equal to
its book's task. -/
theorem issueReceipt_task_binding (st : Ledger) (req : IssueRequest)
    (newId now : Nat) :
    (∀ book, findBook st req.receiptBookId = some book →
      authCheck book req.actorRole req.actorUserId = true →
      req.taskId ≠ book.taskId →
      issueReceipt st req newId now = (st, .error .ValidationError)) ∧
    (∀ r, (issueReceipt st req newId now).2 = .ok r →
      ∃ book, findBook st req.receiptBookId = some book ∧
        r.taskId = book.taskId) := by
  constructor
  · intro book hb h1 hne
    simp [issueReceipt, hb, h1, hne]
  · intro r h
    obtain ⟨book, hb, -, h2, -, -, -, hr, -⟩ :=
      issueReceipt_ok_elim st req newId now r h
    exact ⟨book, hb, by rw [hr]; simpa [mkReceipt] using h2⟩

theorem issueReceipt_task_binding_witness :
    issueReceipt wLedger wReqTask 1 0 = (wLedger, .error .ValidationError) ∧
    (∃ book, findBook wLedger wReq.receiptBookId = some book ∧
      (mkReceipt wReq 1 0).taskId = book.taskId) := by
  constructor
  · exact (issueReceipt_task_binding wLedger wReqTask 1 0).1
      wBook (by rfl) (by rfl) (by decide)
  · exact (issueReceipt_task_binding wLedger wReq 1 0).2
      (mkReceipt wReq 1 0) (by rfl)

/-! ## Duplicate handling and serialized concurrent issuance -/

theorem issueReceipt_books_unchanged (st : Ledger) (req : IssueRequest)
    (newId now : Nat) :
    (issueReceipt st req newId now).1.books = st.books := by
  rcases issueReceipt_cases st req newId now with ⟨h, -⟩ |
    ⟨-, -, -, -, -, -, -, heq⟩
  · rw [h]
  · rw [heq]

theorem issueReceipt_after_ok (st : Ledger) (req : IssueRequest)
    (newId now : Nat) (r : Receipt)
    (h : (issueReceipt st req newId now).2 = .ok r) (j m : Nat) :
    issueReceipt (issueReceipt st req newId now).1 req j m =
      ((issueReceipt st req newId now).1, .error .DuplicateError) := by
  obtain ⟨book, hb, h1, h2, h3, h4, -, hr, heq⟩ :=
    issueReceipt_ok_elim st req newId now r h
  have hst1 : (issueReceipt st req newId now).1 =
      { st with receipts := r :: st.receipts } := by rw [heq]
  have hfb1 : findBook (issueReceipt st req newId now).1 req.receiptBookId =
      some book := by
    simpa [findBook, issueReceipt_books_unchanged st req newId now] using hb
  have hdup1 : duplicateExists (issueReceipt st req newId now).1
      req.receiptBookId req.receiptNumber = true := by
    rw [hst1]
    simp [duplicateExists, hr, mkReceipt]
  have key : ∀ st1 : Ledger, findBook st1 req.receiptBookId = some book →
      duplicateExists st1 req.receiptBookId req.receiptNumber = true →
      issueReceipt st1 req j m = (st1, .error .DuplicateError) := by
    intro st1 hf hd
    simp [issueReceipt, hf, h1, h2, h3, h4, hd]
  exact key _ hfb1 hdup1

theorem issueN_all_dup (st1 : Ledger) (req : IssueRequest) (now : Nat)
    (h : ∀ j m, issueReceipt st1 req j m = (st1, .error .DuplicateError)) :
    ∀ n b, issueN st1 req b now n =
      (st1, List.replicate n (.error .DuplicateError))
  | 0, b => by simp [issueN]
  | n + 1, b => by
    simp [issueN, h b now, issueN_all_dup st1 req now h n (b + 1),
      List.replicate_succ]

theorem countP_isOk_replicate_error (n : Nat) (e : ErrorKind) :
    ((List.replicate n ((.error e) : Except ErrorKind Receipt)).countP
      (fun o => o.isOk)) = 0 := by
  induction n with
  | zero => simp
  | succ k ih =>
    simp [List.replicate_succ, List.countP_cons, ih, Except.isOk, Except.toBool]

/-- **C2.** With steps 1–5 passing, `issueReceipt` fails with
DuplicateError exactly when a receipt with the same `(bookId, number)`
pair already exists; every failing call leaves the ledger unchanged; and
the distinctness of the `(bookId, number)` keys of the ledger is preserved
by every call, so no book ever holds two receipts with the same number. -/
theorem issueReceipt_duplicate (st : Ledger) (req : IssueRequest)
    (newId now : Nat) :
    (∀ book, findBook st req.receiptBookId = some book →
      authCheck book req.actorRole req.actorUserId = true →
      req.taskId = book.taskId →
      rangeCheck book req.receiptNumber = true →
      amountCheck req.amount = true →
      ((issueReceipt st req newId now).2 = .error .DuplicateError ↔
        duplicateExists st req.receiptBookId req.receiptNumber = true)) ∧
    (∀ e, (issueReceipt st req newId now).2 = .error e →
      (issueReceipt st req newId now).1 = st) ∧
    ((receiptKeys st).Nodup →
      (receiptKeys (issueReceipt st req newId now).1).Nodup) := by
  refine ⟨?_, ?_, ?_⟩
  · intro book hb h1 h2 h3 h4
    constructor
    · intro herr
      by_contra hdup
      have hdup' : duplicateExists st req.receiptBookId req.receiptNumber =
          false := by simpa using hdup
      simp [issueReceipt, hb, h1, h2, h3, h4, hdup'] at herr
    · intro hdup
      simp [issueReceipt, hb, h1, h2, h3, h4, hdup]
  · intro e he
    rcases issueReceipt_cases st req newId now with ⟨h, -⟩ |
      ⟨-, -, -, -, -, -, -, heq⟩
    · exact h
    · rw [heq] at he; simp at he
  · intro hnd
    rcases issueReceipt_cases st req newId now with ⟨h, -⟩ |
      ⟨book, hb, -, -, -, -, hdup, heq⟩
    · rw [h]; exact hnd
    · rw [heq]
      have hkeys : receiptKeys
          { st with receipts := mkReceipt req newId now :: st.receipts } =
          (req.receiptBookId, req.receiptNumber) :: receiptKeys st := by
        simp [receiptKeys, mkReceipt]
      rw [hkeys]
      refine List.nodup_cons.mpr ⟨?_, hnd⟩
      intro hmem
      have hx := (duplicateExists_iff st req.receiptBookId
        req.receiptNumber).mpr hmem
      simp [hdup] at hx

theorem issueReceipt_duplicate_witness :
    ((issueReceipt wLedger1 wReq 2 1).2 = .error .DuplicateError ↔
      duplicateExists wLedger1 wReq.receiptBookId wReq.receiptNumber = true) ∧
    (issueReceipt wLedger1 wReq 2 1).1 = wLedger1 ∧
    (receiptKeys (issueReceipt wLedger1 wReq 2 1).1).Nodup := by
  obtain ⟨ha, hb, hc⟩ := issueReceipt_duplicate wLedger1 wReq 2 1
  exact ⟨ha wBook (by rfl) (by rfl) (by rfl) (by rfl) (by rfl),
    hb .DuplicateError (by rfl), hc (by decide)⟩

/-- **C3.** When `N = n + 1` identical issuance requests for the same
`(book, number)` run against the ledger — the atomic check-and-insert of
§4.2 step 6 serializing any concurrent execution of them — and the ledger
admits the request, exactly one request succeeds and the other `n` fail
with DuplicateError; two successes are impossible. -/
theorem concurrent_issuance_one_success (st : Ledger) (req : IssueRequest)
    (baseId now n : Nat) (r : Receipt)
    (h : (issueReceipt st req baseId now).2 = .ok r) :
    (issueN st req baseId now (n + 1)).2 =
      .ok r :: List.replicate n (.error .DuplicateError) ∧
    ((issueN st req baseId now (n + 1)).2.countP (fun o => o.isOk)) = 1 := by
  have hstuck : ∀ j m,
      issueReceipt (issueReceipt st req baseId now).1 req j m =
        ((issueReceipt st req baseId now).1, .error .DuplicateError) :=
    issueReceipt_after_ok st req baseId now r h
  have hrun : (issueN st req baseId now (n + 1)).2 =
      (issueReceipt st req baseId now).2 ::
        List.replicate n (.error .DuplicateError) := by
    simp [issueN, issueN_all_dup _ req now hstuck n (baseId + 1)]
  rw [hrun, h]
  refine ⟨rfl, ?_⟩
  simp [List.countP_cons, countP_isOk_replicate_error, Except.isOk, Except.toBool]

theorem concurrent_issuance_one_success_witness :
    (issueN wLedger wReq 1 0 3).2 =
      .ok wReceipt :: List.replicate 2 (.error .DuplicateError) ∧
    ((issueN wLedger wReq 1 0 3).2.countP (fun o => o.isOk)) = 1 := by
  exact concurrent_issuance_one_success wLedger wReq 1 0 2 wReceipt (by rfl)

/-! ## Next available number, aggregation, and publication -/

theorem foldl_max_mem (l : List Nat) : ∀ a, l.foldl Nat.max a ∈ a :: l := by
  induction l with
  | nil => intro a; simp
  | cons x xs ih =>
    intro a
    have h := ih (Nat.max a x)
    simp only [List.foldl_cons]
    rcases List.mem_cons.mp h with h1 | h1
    · rcases Nat.le_total a x with hle | hle
      · have hm : a.max x = x := max_eq_right hle
        rw [h1, hm]
        exact List.mem_cons_of_mem _ (List.mem_cons_self _ _)
      · have hm : a.max x = a := max_eq_left hle
        rw [h1, hm]
        exact List.mem_cons_self _ _
    · exact List.mem_cons_of_mem _ (List.mem_cons_of_mem _ h1)

theorem le_foldl_max (l : List Nat) : ∀ a, a ≤ l.foldl Nat.max a ∧
    ∀ x ∈ l, x ≤ l.foldl Nat.max a := by
  induction l with
  | nil => intro a; simp
  | cons y ys ih =>
    intro a
    obtain ⟨h1, h2⟩ := ih (Nat.max a y)
    simp only [List.foldl_cons]
    refine ⟨le_trans (Nat.le_max_left a y) h1, ?_⟩
    intro x hx
    rcases List.mem_cons.mp hx with h | h
    · rw [h]; exact le_trans (Nat.le_max_right a y) h1
    · exact h2 x h

/-- **C4.** For a resolvable book, `nextAvailableNumber` returns
`book.start` when the book has no receipts, and the maximum issued number
plus one otherwise; in both cases it fails with RangeExhaustedError
exactly when the candidate exceeds `book.end`.  It reads the ledger
without modifying it (its type returns no state at all). -/
theorem nextAvailableNumber_spec (st : Ledger) (bookId : Nat)
    (book : ReceiptBook) (hb : findBook st bookId = some book) :
    (bookReceiptNumbers st bookId = [] →
      nextAvailableNumber st bookId =
        if book.endingReceiptNumber < book.startingReceiptNumber then
          .error .RangeExhaustedError
        else .ok book.startingReceiptNumber) ∧
    (bookReceiptNumbers st bookId ≠ [] →
      ∃ m, m ∈ bookReceiptNumbers st bookId ∧
        (∀ x ∈ bookReceiptNumbers st bookId, x ≤ m) ∧
        nextAvailableNumber st bookId =
          if book.endingReceiptNumber < m + 1 then .error .RangeExhaustedError
          else .ok (m + 1)) := by
  constructor
  · intro hnil
    simp [nextAvailableNumber, hb, hnil]
  · intro hne
    obtain ⟨y, ys, hcons⟩ := List.exists_cons_of_ne_nil hne
    refine ⟨(bookReceiptNumbers st bookId).foldl Nat.max 0, ?_,
      (le_foldl_max (bookReceiptNumbers st bookId) 0).2, ?_⟩
    · rcases List.mem_cons.mp (foldl_max_mem (bookReceiptNumbers st bookId) 0)
        with h | h
      · have hy0 := (le_foldl_max (bookReceiptNumbers st bookId) 0).2 y
          (by rw [hcons]; exact List.mem_cons_self _ _)
        rw [h] at hy0
        rw [h, hcons]
        rw [← Nat.le_zero.mp hy0]
        exact List.mem_cons_self _ _
      · exact h
    · simp only [nextAvailableNumber, hb]
      rw [hcons]

/-- A ledger with receipts numbered 3, 1, 2 issued in book 1. -/
def wLedger3 : Ledger :=
  { books := [wBook],
    receipts := [mkReceipt wReq 1 0,
      mkReceipt { wReq with receiptNumber := 1 } 2 1,
      mkReceipt { wReq with receiptNumber := 2 } 3 2] }

theorem nextAvailableNumber_spec_witness :
    (nextAvailableNumber wLedger 1 =
      if wBook.endingReceiptNumber < wBook.startingReceiptNumber then
        .error .RangeExhaustedError
      else .ok wBook.startingReceiptNumber) ∧
    (∃ m, m ∈ bookReceiptNumbers wLedger3 1 ∧
      (∀ x ∈ bookReceiptNumbers wLedger3 1, x ≤ m) ∧
      nextAvailableNumber wLedger3 1 =
        if wBook.endingReceiptNumber < m + 1 then .error .RangeExhaustedError
        else .ok (m + 1)) := by
  constructor
  · exact (nextAvailableNumber_spec wLedger 1 wBook (by rfl)).1 (by rfl)
  · exact (nextAvailableNumber_spec wLedger3 1 wBook (by rfl)).2 (by decide)

/-- **C8.** For every state and every filter, the aggregator's balance
equals `totalIncome - totalExpenses`; and so does the balance of every
snapshot stored by `publish`. -/
theorem computeTotals_balance (st : AppState) (f : TotalsFilter)
    (role : Role) (uid now newId : Nat) :
    (computeTotals st f).balance =
      (computeTotals st f).totalIncome - (computeTotals st f).totalExpenses ∧
    (∀ rep, (publish st role uid now newId).2 = .ok rep →
      rep.balance = rep.totalIncome - rep.totalExpenses) := by
  constructor
  · rfl
  · intro rep h
    cases role with
    | cash_collector => simp [publish] at h
    | manager =>
      simp only [publish] at h
      rw [← Except.ok.inj h]
      rfl
    | admin =>
      simp only [publish] at h
      rw [← Except.ok.inj h]
      rfl

/-- A concrete income task. -/
def wTask : Task := { id := 10, name := "Construction" }

/-- A concrete expense of 40. -/
def wExpense : Expense :=
  { id := 1, expenseTypeId := 1, amount := 40, description := "E",
    date := 0, recordedBy := 9 }

/-- A concrete application state for publishing witnesses: one receipt of
100 in book 1 and one expense of 40. -/
def wApp : AppState :=
  { ledger := wLedger1, tasks := [wTask], expenses := [wExpense],
    reports := [] }

/-- The snapshot produced by a manager publishing on `wApp`. -/
def wPubRep : PublishedReport :=
  { id := 1
    totalIncome := (computeTotals wApp TotalsFilter.all).totalIncome
    totalExpenses := (computeTotals wApp TotalsFilter.all).totalExpenses
    balance := (computeTotals wApp TotalsFilter.all).balance
    incomeByTask := (computeTotals wApp TotalsFilter.all).incomeByTask
    publishedAt := 5
    publishedBy := 9 }

theorem computeTotals_balance_witness :
    (publish wApp .manager 9 5 1).2 = .ok wPubRep ∧
    wPubRep.balance = wPubRep.totalIncome - wPubRep.totalExpenses := by
  have h : (publish wApp .manager 9 5 1).2 = .ok wPubRep := rfl
  exact ⟨h,
    (computeTotals_balance wApp TotalsFilter.all .manager 9 5 1).2 wPubRep h⟩

theorem latest_foldl_spec (rs : List PublishedReport) :
    ∀ r : PublishedReport,
    rs.foldl (fun acc x => if acc.publishedAt < x.publishedAt then x else acc)
      r ∈ r :: rs ∧
    r.publishedAt ≤ (rs.foldl
      (fun acc x => if acc.publishedAt < x.publishedAt then x else acc)
      r).publishedAt ∧
    ∀ x ∈ rs, x.publishedAt ≤ (rs.foldl
      (fun acc x => if acc.publishedAt < x.publishedAt then x else acc)
      r).publishedAt := by
  induction rs with
  | nil => intro r; simp
  | cons y ys ih =>
    intro r
    obtain ⟨h1, h2, h3⟩ := ih (if r.publishedAt < y.publishedAt then y else r)
    simp only [List.foldl_cons]
    refine ⟨?_, ?_, ?_⟩
    · rcases List.mem_cons.mp h1 with h | h
      · rw [h]
        by_cases hc : r.publishedAt < y.publishedAt
        · simp [hc]
        · simp [hc]
      · exact List.mem_cons_of_mem _ (List.mem_cons_of_mem _ h)
    · refine le_trans ?_ h2
      by_cases hc : r.publishedAt < y.publishedAt
      · simp only [if_pos hc]; exact le_of_lt hc
      · simp [hc]
    · intro x hx
      rcases List.mem_cons.mp hx with h | h
      · rw [h]
        refine le_trans ?_ h2
        by_cases hc : r.publishedAt < y.publishedAt
        · simp [hc]
        · simp only [if_neg hc]; exact le_of_not_lt hc
      · exact h3 x h

/-- **C9.** `getLatestPublished` returns the most recent PublishedReport
(a member of the stored reports whose publish timestamp is maximal) when
any exists, and an empty result — never a server error — when none has
ever been published; its endpoint is the only one reachable without
authentication. -/
theorem getLatestPublished_spec (reports : List PublishedReport) :
    (reports ≠ [] →
      ∃ r, getLatestPublished reports = some r ∧ r ∈ reports ∧
        ∀ x ∈ reports, x.publishedAt ≤ r.publishedAt) ∧
    getLatestPublished ([] : List PublishedReport) = none ∧
    requiresAuth .publishedReport = false := by
  refine ⟨?_, rfl, rfl⟩
  intro hne
  rcases reports with _ | ⟨y, ys⟩
  · exact absurd rfl hne
  · obtain ⟨h1, h2, h3⟩ := latest_foldl_spec ys y
    refine ⟨_, rfl, h1, ?_⟩
    intro x hx
    rcases List.mem_cons.mp hx with h | h
    · rw [h]; exact h2
    · exact h3 x h

/-- An older published snapshot. -/
def wPubRepOld : PublishedReport := { wPubRep with id := 0, publishedAt := 2 }

theorem getLatestPublished_spec_witness :
    ∃ r, getLatestPublished [wPubRep, wPubRepOld] = some r ∧
      r ∈ [wPubRep, wPubRepOld] ∧
      ∀ x ∈ [wPubRep, wPubRepOld], x.publishedAt ≤ r.publishedAt := by
  exact (getLatestPublished_spec [wPubRep, wPubRepOld]).1 (by simp)

end ProfitFlow
